import Mathlib

/-!
Verification of spitball.py against its specification.

The file contains a shallow embedding of the two pipelines of the program:
the collector (glob expansion, git-path / binary-size / gitignore filtering,
Markdown rendering, in the function named main of the source) and the
clipboard tree builder (parse_tree_clipboard and create_tree_from_clipboard).
The filesystem is an explicit record of the observations the program makes;
machine strings are Lean strings, byte contents are lists of naturals below
256, and every fallible operation returns an Option or Except value.
-/

/-! ## String ordering, modelling the comparison used by Python sorted -/

/-- Lexicographic strict comparison of character lists by Unicode code
point. Python compares strings exactly this way, so this models the order
used by the calls sorted(set(files)) and files.sort() in main. -/
def strLtL : List Char → List Char → Bool
  | _, [] => false
  | [], _ :: _ => true
  | a :: as, b :: bs =>
    if a.toNat < b.toNat then true
    else if b.toNat < a.toNat then false
    else strLtL as bs

/-- Non-strict string comparison: a is at most b when b is not below a. -/
def strLe (a b : String) : Bool := ! strLtL b.toList a.toList

/-- Propositional form of strLe, the relation handed to the sorting
function. -/
def StrLe (a b : String) : Prop := strLe a b = true

instance : DecidableRel StrLe := fun a b => inferInstanceAs (Decidable (strLe a b = true))

/-- Sorting as performed by Python sorted and list.sort: ascending in the
lexicographic string order. Distinct elements have a unique sorted
arrangement, so insertion sort models the library sort exactly. -/
def pySortStrings (l : List String) : List String := List.insertionSort StrLe l

/-- Model of sorted(set(files)) in main: remove duplicates, then sort. -/
def sortDedup (l : List String) : List String := pySortStrings l.dedup

/-! ## Filesystem model for the collector -/

/-- Observations the collector makes of the operating system. Pattern
expansion, file probing and the optional gitignore machinery are explicit
fields; a none result of stat or content stands for a raised OSError, and
an error value of readText for the exception raised by a text-mode read.
The field wildmatch is the abstract matcher of one positive gitwildmatch
pattern against one path, supplied by the pathspec library. -/
structure FS where
  globExpand : String → List String
  isFile : String → Bool
  stat : String → Option Nat
  content : String → Option (List Nat)
  readText : String → Except String String
  gitignoreExists : Bool
  gitignoreLines : List String
  pathspecAvailable : Bool
  wildmatch : String → String → Bool
  relpath : String → String

/-- Characters removed by the Python methods str.strip and str.rstrip
called with no argument, on the character set these inputs use. -/
def isPySpace (c : Char) : Bool :=
  c = ' ' || c = '\t' || c = '\n' || c = '\r' || c = '\x0b' || c = '\x0c'

/-- Model of str.strip on a character list. -/
def pyStripList (l : List Char) : List Char :=
  ((l.dropWhile isPySpace).reverse.dropWhile isPySpace).reverse

/-- Model of str.strip. -/
def pyStrip (s : String) : String := String.mk (pyStripList s.toList)

/-- Model of str.rstrip. -/
def pyRstrip (s : String) : String :=
  String.mk ((s.toList.reverse.dropWhile isPySpace).reverse)

/-- Test for str.startswith with a one-character argument. -/
def headIs (s : String) (c : Char) : Bool :=
  match s.toList with
  | [] => false
  | a :: _ => a = c

/-- Embedding of load_gitignore_patterns (source lines 21 to 31): when the
ignore file exists, keep the lines that are nonempty after stripping and
do not start with a hash, stripped. The startswith test runs on the
unstripped line, exactly as in the source. -/
def load_gitignore_patterns (fs : FS) : List String :=
  if fs.gitignoreExists then
    (fs.gitignoreLines.filter (fun l => (pyStrip l != "") && (! headIs l '#'))).map pyStrip
  else []

/-- Splitting of a character list on a separator character. -/
def splitAux (sep : Char) : List Char → List Char → List (List Char) → List (List Char)
  | [], cur, acc => (cur.reverse :: acc).reverse
  | c :: rest, cur, acc =>
    if c = sep then splitAux sep rest [] (cur.reverse :: acc)
    else splitAux sep rest (c :: cur) acc

/-- Embedding of is_git_path (source lines 34 to 36): Path(path).parts
contains the component ".git" exactly when splitting the path on the
separator yields a ".git" component, since pathlib normalisation removes
only empty and single-dot components, which are never ".git". -/
def is_git_path (p : String) : Bool :=
  (splitAux '/' p.toList [] []).any (fun part => part == ".git".toList)

/-- Size threshold of is_binary_or_large: 100 KiB (source line 39). -/
def max_size : Nat := 100 * 1024

/-- Allow-list built at source line 50: byte values 7, 8, 9, 10, 12, 13,
27 together with the range 0x20 to 0xFF. -/
def isTextByte (b : Nat) : Bool :=
  b == 7 || b == 8 || b == 9 || b == 10 || b == 12 || b == 13 || b == 27 ||
    (decide (32 ≤ b) && decide (b ≤ 255))

/-- Embedding of is_binary_or_large (source lines 39 to 53). The call
os.path.getsize sits outside the try block, so a stat failure escapes as
an exception (the error case); failures of open or read are caught and
classified as binary; otherwise the file is binary when it exceeds the
size threshold, contains a NUL among its first 1024 bytes, or has a byte
outside the text allow-list there. -/
def is_binary_or_large (fs : FS) (filepath : String) : Except Unit Bool :=
  match fs.stat filepath with
  | none => .error ()
  | some size =>
    if size > max_size then .ok true
    else
      match fs.content filepath with
      | none => .ok true
      | some bytes =>
        let chunk := bytes.take 1024
        if chunk.contains 0 then .ok true
        else .ok (chunk.any (fun b => ! isTextByte b))

/-- Model of pathspec gitwildmatch matching at per-pattern granularity,
as used at source lines 207 and 210: patterns apply in order, the last
matching pattern decides, and a leading bang negates; with no patterns
nothing matches. The matching of one positive pattern is the abstract
function wild. -/
def specMatchFile (wild : String → String → Bool) (pats : List String) (f : String) : Bool :=
  pats.foldl
    (fun acc p =>
      if headIs p '!' then (if wild (String.mk (p.toList.drop 1)) f then false else acc)
      else (if wild p f then true else acc))
    false

/-- Embedding of the glob loop in main (source lines 173 to 176): each
pattern expands with glob.glob(pattern, recursive=True) and only the
results that are regular files are kept. -/
def expandPatterns (fs : FS) : List String → List String
  | [] => []
  | p :: rest => ((fs.globExpand p).filter fs.isFile) ++ expandPatterns fs rest

/-- Candidate list of main after source line 177: sorted(set(files)). -/
def gatherFiles (fs : FS) (patterns : List String) : List String :=
  sortDedup (expandPatterns fs patterns)

/-- Embedding of the git filter loop of main (source lines 183 to 190):
excluded paths are recorded with reason "git path", and only when logging
is enabled. -/
def filterGitLoop (log : Bool) : List String → List String × List (String × String)
  | [] => ([], [])
  | f :: rest =>
    let r := filterGitLoop log rest
    if is_git_path f then (r.1, if log then (f, "git path") :: r.2 else r.2)
    else (f :: r.1, r.2)

/-- Embedding of the binary filter loop of main (source lines 193 to 200):
the classifier runs on each file in order and any exception it raises
aborts the whole run. -/
def filterBinaryLoop (fs : FS) (log : Bool) :
    List String → Except Unit (List String × List (String × String))
  | [] => .ok ([], [])
  | f :: rest =>
    match is_binary_or_large fs f with
    | .error e => .error e
    | .ok b =>
      match filterBinaryLoop fs log rest with
      | .error e => .error e
      | .ok r =>
        if b then .ok (r.1, if log then (f, "binary/large") :: r.2 else r.2)
        else .ok (f :: r.1, r.2)

/-- Embedding of the gitignore filter loop of main (source lines 209 to
215). -/
def filterIgnoreLoop (matchf : String → Bool) (log : Bool) :
    List String → List String × List (String × String)
  | [] => ([], [])
  | f :: rest =>
    let r := filterIgnoreLoop matchf log rest
    if matchf f then (r.1, if log then (f, "gitignore") :: r.2 else r.2)
    else (f :: r.1, r.2)

/-- Filter pipeline of main (source lines 168 to 225): gather and sort the
glob results, drop git paths, drop binary or large files (propagating a
classifier exception), drop gitignore matches when patterns were loaded
and pathspec imports, then sort the final list again. Returns the included
list with the excluded (path, reason) pairs accumulated for logging. -/
def collectFiles (fs : FS) (patterns : List String) (log : Bool) :
    Except Unit (List String × List (String × String)) :=
  let pats := load_gitignore_patterns fs
  let files0 := gatherFiles fs patterns
  let r1 := filterGitLoop log files0
  match filterBinaryLoop fs log r1.1 with
  | .error e => .error e
  | .ok r2 =>
    let r3 :=
      if pats ≠ [] then
        if fs.pathspecAvailable then filterIgnoreLoop (specMatchFile fs.wildmatch pats) log r2.1
        else (r2.1, [])
      else (r2.1, [])
    .ok (pySortStrings r3.1, r1.2 ++ r2.2 ++ r3.2)

/-- Header line for one included file (source lines 229 to 232): hash
marks, one more than the count of path separators in the relative path,
then the relative path. -/
def headerOf (fs : FS) (f : String) : String :=
  let rel := fs.relpath f
  String.mk (List.replicate (rel.toList.count '/' + 1) '#') ++ " " ++ rel ++ "\n"

/-- Fenced block for one included file (source lines 233 to 238): the file
content read in text mode, or a literal error description when the read
raises. -/
def fenceOf (fs : FS) (f : String) : String :=
  match fs.readText f with
  | .ok content => "```\n" ++ content ++ "\n```\n"
  | .error e => "```\nError reading file: " ++ e ++ "\n```\n"

/-- The md_lines list of main (source lines 227 to 238): two entries per
included file, a header line and a fenced block. -/
def md_lines (fs : FS) : List String → List String
  | [] => []
  | f :: rest => headerOf fs f :: fenceOf fs f :: md_lines fs rest

/-- The document of main (source line 240): md_lines joined by newline. -/
def md_content (fs : FS) (files : List String) : String :=
  String.intercalate "\n" (md_lines fs files)

/-- Console lines printed by log_file_status (source lines 13 to 18). -/
def log_file_status (included : List String) (excluded : List (String × String)) : List String :=
  included.map (fun f => "+ " ++ f) ++
    excluded.map (fun fr => "- " ++ fr.1 ++ " (" ++ fr.2 ++ ")")

/-- Result of one collector run: the rendered document and the log lines
printed when logging is enabled. -/
structure RunResult where
  doc : String
  log : List String
deriving DecidableEq

/-- Embedding of main (source lines 168 to 247) up to delivery: compute
the document and the log lines; a classifier exception aborts the run. -/
def mainRun (fs : FS) (patterns : List String) (enable_logging : Bool) : Except Unit RunResult :=
  match collectFiles fs patterns enable_logging with
  | .error e => .error e
  | .ok r =>
    .ok { doc := md_content fs r.1
          log := if enable_logging then log_file_status r.1 r.2 else [] }

/-! ## Command line entry point -/

/-- Action taken by the entry point block of the script. -/
inductive CliAction where
  | exitWithMessage : String → CliAction
  | runCollector : List String → Bool → Option String → Bool → CliAction
  | runTree : Bool → CliAction
deriving DecidableEq

/-- Argparse handling of the positional pattern argument (source lines 254
to 255): nargs star with default ["./*"], so a command line carrying no
positional argument yields the default pattern list. -/
def parsePatternArgs (positional : List String) : List String :=
  if positional = [] then ["./*"] else positional

/-- Dispatch of the entry point (source lines 281 to 285): tree mode runs
the tree builder, otherwise the collector runs with the (defaulted)
patterns, the quiet flag negated into enable_logging; no branch of the
block exits with an error status. -/
def cliDispatch (positional : List String) (quiet tree edit openFlag : Bool)
    (file : Option String) : CliAction :=
  if tree then .runTree edit
  else .runCollector (parsePatternArgs positional) (! quiet) file openFlag

/-- Recogniser of the exiting action, used to state exit-status claims. -/
def isExitAction : CliAction → Bool
  | .exitWithMessage _ => true
  | _ => false

/-! ## Tree builder -/

/-- Connector characters recognised by parse_tree_clipboard: the distinct
characters of the string literal at source line 124. The space character
is not among them. -/
def treeChars : List Char := ['├', '─', '│', '└']

/-- Parse of one clipboard line (source lines 120 to 133): count the
leading run of connector characters, divide by four for the depth, strip
the rest for the name, classify as directory when the name has no dot; a
line whose name strips to nothing is dropped. -/
def parseTreeLine (ln : String) : Option (Nat × String × Bool) :=
  let cs := ln.toList
  let prefixLen := (cs.takeWhile (fun c => treeChars.contains c)).length
  let depth := prefixLen / 4
  let name := pyStripList (cs.drop prefixLen)
  if name = [] then none
  else some (depth, String.mk name, ! name.contains '.')

/-- Embedding of parse_tree_clipboard (source lines 112 to 134) given the
clipboard text already split into lines: blank lines are dropped, the
rest are right-stripped and parsed into (depth, name, is_dir) triples. -/
def parse_tree_clipboard (lines : List String) : List (Nat × String × Bool) :=
  ((lines.filter (fun ln => pyStrip ln != "")).map pyRstrip).filterMap parseTreeLine

/-- Filesystem state for the tree builder: files as an association list
from path to content, directories as a list of paths. -/
structure TreeFS where
  files : List (String × String)
  dirs : List String
deriving DecidableEq

/-- Association lookup stating what the tree builder does to files. -/
def lookupS (p : String) : List (String × String) → Option String
  | [] => none
  | kv :: t => if kv.1 = p then some kv.2 else lookupS p t

/-- Model of pathlib.Path.touch (source line 159): create an empty file
when the path is absent; an existing file keeps its content, since touch
only refreshes timestamps and never truncates. -/
def touchFS (t : TreeFS) (p : String) : TreeFS :=
  if (lookupS p t.files).isSome then t else { t with files := (p, "") :: t.files }

/-- Model of os.makedirs with exist_ok (source line 152): record the
directory; creation is idempotent. -/
def makedirsFS (t : TreeFS) (p : String) : TreeFS :=
  if t.dirs.contains p then t else { t with dirs := p :: t.dirs }

/-- Model of os.path.join of the stack and the name (source lines 148 and
155): a later absolute component resets the path, otherwise components
join with a single separator. -/
def osJoin2 (a b : String) : String :=
  if headIs b '/' then b
  else if a = "" then b
  else if a.toList.getLast? = some '/' then a ++ b
  else a ++ "/" ++ b

/-- Join of the whole ancestor stack with the entry name. -/
def osJoin (stack : List String) (name : String) : String :=
  (stack ++ [name]).foldl osJoin2 ""

/-- Entry loop of create_tree_from_clipboard (source lines 142 to 160):
pop the stack to the depth of the entry, join the path, create the
directory or the empty file (or only record the action in dry-run mode),
and collect created file paths in order. Returns the filesystem, the
created files and the printed action lines. -/
def createTreeGo (dryRun : Bool) : List (Nat × String × Bool) → TreeFS → List String →
    TreeFS × List String × List String
  | [], t, _ => (t, [], [])
  | (depth, name, isDir) :: rest, t, stack =>
    let stack2 := stack.take depth
    let path := osJoin stack2 name
    if isDir then
      if dryRun then
        let r := createTreeGo dryRun rest t (stack2 ++ [name])
        (r.1, r.2.1, ("mkdir " ++ path) :: r.2.2)
      else
        let r := createTreeGo dryRun rest (makedirsFS t path) (stack2 ++ [name])
        (r.1, r.2.1, r.2.2)
    else
      if dryRun then
        let r := createTreeGo dryRun rest t stack2
        (r.1, path :: r.2.1, ("touch " ++ path) :: r.2.2)
      else
        let r := createTreeGo dryRun rest (touchFS t path) stack2
        (r.1, path :: r.2.1, r.2.2)

/-- Embedding of create_tree_from_clipboard (source lines 137 to 165),
taking the parsed entries: returns the final filesystem, created_files
and the dry-run action lines. -/
def create_tree_from_clipboard (dryRun : Bool) (t : TreeFS)
    (entries : List (Nat × String × Bool)) : TreeFS × List String × List String :=
  createTreeGo dryRun entries t []

/-- Survival of the binary stage: the classifier ran without exception
and answered false. -/
def keptByClassifier (fs : FS) (f : String) : Bool :=
  match is_binary_or_large fs f with
  | .ok false => true
  | _ => false

/-- Included list exactly as claim C1 words it: the lexicographically
sorted, de-duplicated set of regular files matched by at least one
pattern, minus paths containing a .git segment, minus files classified
binary or oversized, minus gitignore-matched files, where the last
subtraction applies only when the ignore file exists and the pathspec
capability is available. This definition follows the words of the claim;
the theorem for C1 compares it with the pipeline of the source. -/
def claimIncludedFiles (fs : FS) (patterns : List String) : List String :=
  (gatherFiles fs patterns).filter
    (fun f =>
      (! is_git_path f) && keptByClassifier fs f &&
        ! (fs.gitignoreExists && fs.pathspecAvailable &&
            specMatchFile fs.wildmatch (load_gitignore_patterns fs) f))

/-! ## Concrete fixtures used by witnesses and counterexamples -/

/-- The tree listing of the specification regression test, as clipboard
lines. -/
def exampleTreeLines : List String :=
  ["├── src", "│   ├── main.py", "│   └── utils", "└── README.md"]

/-- Filesystem with a single matched path whose stat raises (a dangling
symlink): getsize fails, and so does any open. -/
def fsStatFails : FS where
  globExpand := fun _ => ["ghost.txt"]
  isFile := fun _ => true
  stat := fun _ => none
  content := fun _ => none
  readText := fun _ => .error "No such file or directory"
  gitignoreExists := false
  gitignoreLines := []
  pathspecAvailable := false
  wildmatch := fun _ _ => false
  relpath := fun p => p

/-- Filesystem with two all-text files sitting on the two sides of the
size threshold. -/
def fsBoundary : FS where
  globExpand := fun _ => ["eq.txt", "over.txt"]
  isFile := fun _ => true
  stat := fun f => if f = "over.txt" then some 102401 else some 102400
  content := fun _ => some [104, 105]
  readText := fun _ => .ok "hi"
  gitignoreExists := false
  gitignoreLines := []
  pathspecAvailable := false
  wildmatch := fun _ _ => false
  relpath := fun p => p

/-- Filesystem with a small file that carries a NUL byte. -/
def fsNul : FS where
  globExpand := fun _ => ["n.bin"]
  isFile := fun _ => true
  stat := fun _ => some 10
  content := fun _ => some [65, 0, 66]
  readText := fun _ => .error "invalid start byte"
  gitignoreExists := false
  gitignoreLines := []
  pathspecAvailable := false
  wildmatch := fun _ _ => false
  relpath := fun p => p

/-- Filesystem whose text read fails for one file and succeeds for the
others. -/
def fsRenderErr : FS where
  globExpand := fun _ => ["a.txt", "bad.txt", "b.txt"]
  isFile := fun _ => true
  stat := fun _ => some 5
  content := fun _ => some [104]
  readText := fun f => if f = "bad.txt" then .error "boom" else .ok "content"
  gitignoreExists := false
  gitignoreLines := []
  pathspecAvailable := false
  wildmatch := fun _ _ => false
  relpath := fun p => p

/-- Relation between file stores before and after a tree-builder run:
every path either keeps exactly its old content or was absent and is now
an empty file. -/
def PreservesFiles (old new : List (String × String)) : Prop :=
  ∀ p, lookupS p new = lookupS p old ∨ (lookupS p old = none ∧ lookupS p new = some "")

/-- Filesystem exercising every stage of the pipeline: a duplicate match,
a directory, a git-internal path, a binary file and an ignored file. -/
def fsPipeline : FS where
  globExpand := fun p =>
    if p = "*" then ["b.txt", "a.log", ".git/config", "a.log", "bin.dat", "src"] else []
  isFile := fun f => f != "src"
  stat := fun _ => some 10
  content := fun f => if f = "bin.dat" then some [0, 1] else some [104, 105]
  readText := fun _ => .ok "hi"
  gitignoreExists := true
  gitignoreLines := ["*.log", "", "# comment"]
  pathspecAvailable := true
  wildmatch := fun pat f => pat == "*.log" && f == "a.log"
  relpath := fun p => p

/-! ## Order lemmas for the string comparison -/

theorem char_eq_of_toNat_eq (a b : Char) (h : a.toNat = b.toNat) : a = b := by
  have h2 : a.val = b.val := by
    rcases a with ⟨⟨⟨⟨x, hx⟩⟩⟩, ha⟩
    rcases b with ⟨⟨⟨⟨y, hy⟩⟩⟩, hb⟩
    simp only [Char.toNat, UInt32.toNat, BitVec.toNat] at h
    simp_all
  exact Char.eq_of_val_eq h2

theorem strLtL_trans : ∀ a b c : List Char,
    strLtL a b = true → strLtL b c = true → strLtL a c = true := by
  intro a
  induction a with
  | nil =>
    intro b c h1 h2
    cases b with
    | nil => simp [strLtL] at h1
    | cons b bs =>
      cases c with
      | nil => simp [strLtL] at h2
      | cons c cs => simp [strLtL]
  | cons a as ih =>
    intro b c h1 h2
    cases b with
    | nil => simp [strLtL] at h1
    | cons b bs =>
      cases c with
      | nil => simp [strLtL] at h2
      | cons c cs =>
        simp only [strLtL] at h1 h2 ⊢
        by_cases hab : a.toNat < b.toNat
        · by_cases hbc : b.toNat < c.toNat
          · have hac : a.toNat < c.toNat := Nat.lt_trans hab hbc
            simp [hac]
          · by_cases hcb : c.toNat < b.toNat
            · simp [hbc, hcb] at h2
            · have hac : a.toNat < c.toNat := by omega
              simp [hac]
        · by_cases hba : b.toNat < a.toNat
          · simp [hab, hba] at h1
          · by_cases hbc : b.toNat < c.toNat
            · have hac : a.toNat < c.toNat := by omega
              simp [hac]
            · by_cases hcb : c.toNat < b.toNat
              · simp [hbc, hcb] at h2
              · have h1x : strLtL as bs = true := by simpa [hab, hba] using h1
                have h2x : strLtL bs cs = true := by simpa [hbc, hcb] using h2
                have hac : ¬ a.toNat < c.toNat := by omega
                have hca : ¬ c.toNat < a.toNat := by omega
                simp [hac, hca, ih bs cs h1x h2x]

theorem strLtL_asymm : ∀ a b : List Char, strLtL a b = true → strLtL b a = false := by
  intro a
  induction a with
  | nil =>
    intro b h1
    cases b with
    | nil => simp [strLtL] at h1
    | cons b bs => simp [strLtL]
  | cons a as ih =>
    intro b h1
    cases b with
    | nil => simp [strLtL] at h1
    | cons b bs =>
      simp only [strLtL] at h1 ⊢
      by_cases hab : a.toNat < b.toNat
      · have hba : ¬ b.toNat < a.toNat := by omega
        simp [hab, hba]
      · by_cases hba : b.toNat < a.toNat
        · simp [hab, hba] at h1
        · have h1x : strLtL as bs = true := by simpa [hab, hba] using h1
          simp [hab, hba, ih bs h1x]

theorem strLtL_eq_of_not_lt : ∀ a b : List Char,
    strLtL a b = false → strLtL b a = false → a = b := by
  intro a
  induction a with
  | nil =>
    intro b h1 h2
    cases b with
    | nil => rfl
    | cons b bs => simp [strLtL] at h1
  | cons a as ih =>
    intro b h1 h2
    cases b with
    | nil => simp [strLtL] at h2
    | cons b bs =>
      simp only [strLtL] at h1 h2
      by_cases hab : a.toNat < b.toNat
      · simp [hab] at h1
      · by_cases hba : b.toNat < a.toNat
        · simp [hab, hba] at h2
        · have h1x : strLtL as bs = false := by simpa [hab, hba] using h1
          have h2x : strLtL bs as = false := by simpa [hab, hba] using h2
          have hc : a = b := char_eq_of_toNat_eq a b (by omega)
          rw [hc, ih bs h1x h2x]

instance : IsTotal String StrLe := by
  constructor
  intro a b
  by_cases h : strLtL b.toList a.toList = true
  · right
    have hx := strLtL_asymm _ _ h
    simp only [StrLe, strLe, Bool.not_eq_true']
    exact hx
  · left
    simp only [StrLe, strLe, Bool.not_eq_true']
    simpa using h

instance : IsTrans String StrLe := by
  constructor
  intro a b c h1 h2
  simp only [StrLe, strLe, Bool.not_eq_true', Bool.not_eq_false] at h1 h2 ⊢
  by_cases hca : strLtL c.toList a.toList = true
  · by_cases hbc : strLtL b.toList c.toList = true
    · have : strLtL b.toList a.toList = true := strLtL_trans _ _ _ hbc hca
      rw [h1] at this
      exact absurd this (by simp)
    · have hbc2 : strLtL b.toList c.toList = false := by simpa using hbc
      have heq : b.toList = c.toList := strLtL_eq_of_not_lt _ _ hbc2 h2
      rw [← heq] at hca
      rw [h1] at hca
      exact absurd hca (by simp)
  · simpa using hca


/-! ## Claim C2: the tree regression example -/

/-- Claim C2: the specification requires that the four-line example tree
produces directories src and src/utils and empty files src/main.py and
README.md. The code does not: the space character is not in the connector
set, so the prefix count of an indented line stops at the first space,
every entry gets depth zero, and the connector marks stay inside the
names. This theorem evaluates the embedded builder at the required input
and records what the code actually creates: top-level directories src and
"└── utils" and top-level empty files "├── main.py" and README.md. -/
theorem create_tree_example_diverges :
    create_tree_from_clipboard false ⟨[], []⟩ (parse_tree_clipboard exampleTreeLines) =
      (⟨[("README.md", ""), ("├── main.py", "")], ["└── utils", "src"]⟩,
        ["├── main.py", "README.md"], []) ∧
    (create_tree_from_clipboard false ⟨[], []⟩
        (parse_tree_clipboard exampleTreeLines)).1.dirs.contains "src/utils" = false ∧
    lookupS "src/main.py"
      (create_tree_from_clipboard false ⟨[], []⟩
        (parse_tree_clipboard exampleTreeLines)).1.files = none := by
  refine ⟨rfl, rfl, rfl⟩

/-! ## Claim C3: stat failures escape the classifier -/

/-- Claim C3: the specification says every probing failure, including a
failure to obtain the size, is classified as binary and cannot abort the
run. The code calls os.path.getsize outside its try block, so a stat
failure escapes the classifier as an exception and aborts the whole
collector run, as this evaluation at a dangling-symlink filesystem
shows. -/
theorem classifier_stat_failure_escapes :
    is_binary_or_large fsStatFails "ghost.txt" = .error () ∧
    collectFiles fsStatFails ["*"] true = .error () ∧
    mainRun fsStatFails ["*"] true = .error () := by
  refine ⟨rfl, rfl, rfl⟩

/-! ## Claim C4: behaviour with no command line arguments -/

/-- Claim C4 counterexample: invoked with no arguments, the entry point
does not exit with an error; the dispatch is not the exiting action. -/
theorem no_args_does_not_exit :
    isExitAction (cliDispatch [] false false false false none) = false := rfl

/-- Claim C4 (amended): invoked with no command line arguments, argparse
substitutes the default pattern list ["./*"] and the collector runs
normally with logging enabled and no output file; the process does not
exit with a non-zero status. -/
theorem no_args_runs_default_pattern :
    cliDispatch [] false false false false none =
      CliAction.runCollector ["./*"] true none false := rfl

/-! ## Claims C5 and C6: the binary and size classifier -/

/-- Claim C5: for every file whose first 1024 bytes all lie in the text
allow-list, the classifier excludes it exactly when its size exceeds
100 KiB. -/
theorem text_file_excluded_iff_oversized (fs : FS) (f : String) (sz : Nat) (bytes : List Nat)
    (hstat : fs.stat f = some sz) (hcontent : fs.content f = some bytes)
    (htext : ∀ b ∈ bytes.take 1024, isTextByte b = true) :
    is_binary_or_large fs f = .ok (decide (sz > max_size)) := by
  have hnotmem : (0 : Nat) ∉ bytes.take 1024 := by
    intro hmem
    have := htext 0 hmem
    simp [isTextByte] at this
  have hany : (bytes.take 1024).any (fun b => ! isTextByte b) = false := by
    rw [List.any_eq_false]
    intro x hx
    simp [htext x hx]
  by_cases hs : sz > max_size
  · simp [is_binary_or_large, hstat, hs]
  · simp [is_binary_or_large, hstat, hcontent, hs, hany]
    exact hnotmem

/-- Claim C5 witness: with all-text content, the file of size exactly
100 KiB is kept and the file one byte over is excluded. -/
theorem text_file_excluded_iff_oversized_witness :
    is_binary_or_large fsBoundary "eq.txt" = .ok false ∧
    is_binary_or_large fsBoundary "over.txt" = .ok true := by
  constructor
  · have h := text_file_excluded_iff_oversized fsBoundary "eq.txt" 102400 [104, 105]
      rfl rfl (by decide)
    rw [show decide (102400 > max_size) = false by decide] at h
    exact h
  · have h := text_file_excluded_iff_oversized fsBoundary "over.txt" 102401 [104, 105]
      rfl rfl (by decide)
    rw [show decide (102401 > max_size) = true by decide] at h
    exact h

/-- Claim C6: a NUL byte anywhere among the first 1024 bytes forces the
binary classification, whatever the size of the file. -/
theorem nul_byte_forces_binary (fs : FS) (f : String) (sz : Nat) (bytes : List Nat)
    (hstat : fs.stat f = some sz) (hcontent : fs.content f = some bytes)
    (hnul : (0 : Nat) ∈ bytes.take 1024) :
    is_binary_or_large fs f = .ok true := by
  by_cases hs : sz > max_size
  · simp [is_binary_or_large, hstat, hs]
  · simp [is_binary_or_large, hstat, hcontent, hs]
    exact fun h => absurd hnul h

/-- Claim C6 witness: the small file with a NUL byte is classified
binary. -/
theorem nul_byte_forces_binary_witness :
    is_binary_or_large fsNul "n.bin" = .ok true :=
  nul_byte_forces_binary fsNul "n.bin" 10 [65, 0, 66] rfl rfl (by decide)

/-! ## Claim C7: rendering survives per-file read failures -/

/-- Claim C7: for every included file whose text read fails, the rendered
lines still contain its header followed by a fenced block holding the
literal error description, and all files before and after it are rendered
unchanged; rendering is total, so a per-file read failure never aborts
the run. -/
theorem render_error_marker (fs : FS) (pre post : List String) (f : String) (e : String)
    (herr : fs.readText f = .error e) :
    md_lines fs (pre ++ f :: post) =
      md_lines fs pre ++
        headerOf fs f :: ("```\nError reading file: " ++ e ++ "\n```\n") :: md_lines fs post ∧
    md_content fs (pre ++ f :: post) =
      String.intercalate "\n"
        (md_lines fs pre ++
          headerOf fs f :: ("```\nError reading file: " ++ e ++ "\n```\n") :: md_lines fs post) := by
  have hmain : md_lines fs (pre ++ f :: post) =
      md_lines fs pre ++
        headerOf fs f :: ("```\nError reading file: " ++ e ++ "\n```\n") :: md_lines fs post := by
    induction pre with
    | nil => simp [md_lines, fenceOf, herr]
    | cons x xs ih => simp [md_lines, ih]
  exact ⟨hmain, by rw [md_content, hmain]⟩

/-- Claim C7 witness: the failing middle file renders as a header plus an
error fence between its two intact neighbours. -/
theorem render_error_marker_witness :
    md_lines fsRenderErr (["a.txt"] ++ "bad.txt" :: ["b.txt"]) =
      md_lines fsRenderErr ["a.txt"] ++
        headerOf fsRenderErr "bad.txt" ::
          ("```\nError reading file: " ++ "boom" ++ "\n```\n") :: md_lines fsRenderErr ["b.txt"] ∧
    md_content fsRenderErr (["a.txt"] ++ "bad.txt" :: ["b.txt"]) =
      String.intercalate "\n"
        (md_lines fsRenderErr ["a.txt"] ++
          headerOf fsRenderErr "bad.txt" ::
            ("```\nError reading file: " ++ "boom" ++ "\n```\n") :: md_lines fsRenderErr ["b.txt"]) :=
  render_error_marker fsRenderErr ["a.txt"] ["b.txt"] "bad.txt" "boom" rfl

/-! ## Claim C8: the tree builder never truncates existing files -/

theorem preservesFiles_refl (l : List (String × String)) : PreservesFiles l l :=
  fun _ => Or.inl rfl

theorem preservesFiles_trans {a b c : List (String × String)}
    (h1 : PreservesFiles a b) (h2 : PreservesFiles b c) : PreservesFiles a c := by
  intro p
  rcases h2 p with h | ⟨hb, hc⟩
  · rw [h]
    exact h1 p
  · rcases h1 p with h | ⟨ha, hb2⟩
    · rw [h] at hb
      exact Or.inr ⟨hb, hc⟩
    · exact Or.inr ⟨ha, hc⟩

theorem touch_preservesFiles (t : TreeFS) (q : String) :
    PreservesFiles t.files (touchFS t q).files := by
  intro p
  unfold touchFS
  by_cases h : (lookupS q t.files).isSome
  · simp [h]
  · simp [h]
    by_cases hpq : q = p
    · right
      subst hpq
      constructor
      · cases hl : lookupS q t.files
        · rfl
        · rw [hl] at h
          simp at h
      · simp [lookupS]
    · left
      simp [lookupS, hpq]

theorem makedirs_files_eq (t : TreeFS) (q : String) : (makedirsFS t q).files = t.files := by
  unfold makedirsFS
  split <;> rfl

theorem createTreeGo_preservesFiles (entries : List (Nat × String × Bool)) :
    ∀ (t : TreeFS) (stack : List String),
      PreservesFiles t.files (createTreeGo false entries t stack).1.files := by
  induction entries with
  | nil =>
    intro t stack
    exact preservesFiles_refl _
  | cons e rest ih =>
    intro t stack
    obtain ⟨depth, name, isDir⟩ := e
    cases isDir
    · simpa [createTreeGo] using
        preservesFiles_trans
          (touch_preservesFiles t (osJoin (stack.take depth) name))
          (ih (touchFS t (osJoin (stack.take depth) name)) (stack.take depth))
    · have hmk := makedirs_files_eq t (osJoin (stack.take depth) name)
      have := ih (makedirsFS t (osJoin (stack.take depth) name)) (stack.take depth ++ [name])
      rw [hmk] at this
      simpa [createTreeGo] using this

/-- Claim C8: a tree-builder run without dry-run never changes the content
of an existing file (in particular it never truncates a non-empty one);
every path either keeps exactly its previous content or was absent and is
now an empty file. -/
theorem tree_mode_never_truncates (entries : List (Nat × String × Bool)) (t : TreeFS)
    (p : String) :
    lookupS p (create_tree_from_clipboard false t entries).1.files = lookupS p t.files ∨
    (lookupS p t.files = none ∧
      lookupS p (create_tree_from_clipboard false t entries).1.files = some "") :=
  createTreeGo_preservesFiles entries t [] p

/-! ## Stage characterisations of the collector pipeline -/

theorem specMatchFile_nil (w : String → String → Bool) (f : String) :
    specMatchFile w [] f = false := rfl

theorem filterGitLoop_fst (log : Bool) (l : List String) :
    (filterGitLoop log l).1 = l.filter (fun f => ! is_git_path f) := by
  induction l with
  | nil => rfl
  | cons f rest ih =>
    cases hg : is_git_path f
    · simp [filterGitLoop, hg, ih]
    · simp [filterGitLoop, hg, ih]

theorem filterIgnoreLoop_fst (matchf : String → Bool) (log : Bool) (l : List String) :
    (filterIgnoreLoop matchf log l).1 = l.filter (fun f => ! matchf f) := by
  induction l with
  | nil => rfl
  | cons f rest ih =>
    cases hg : matchf f
    · simp [filterIgnoreLoop, hg, ih]
    · simp [filterIgnoreLoop, hg, ih]

theorem filterBinaryLoop_ok_fst (fs : FS) (log : Bool) :
    ∀ (l kept : List String) (exc : List (String × String)),
      filterBinaryLoop fs log l = .ok (kept, exc) →
      kept = l.filter (keptByClassifier fs) := by
  intro l
  induction l with
  | nil =>
    intro kept exc h
    simp only [filterBinaryLoop] at h
    obtain ⟨h1, h2⟩ := Prod.mk.injEq .. ▸ (Except.ok.inj h)
    simp [← h1]
  | cons f rest ih =>
    intro kept exc h
    simp only [filterBinaryLoop] at h
    cases hc : is_binary_or_large fs f with
    | error e =>
      rw [hc] at h
      simp at h
    | ok b =>
      rw [hc] at h
      cases hrec : filterBinaryLoop fs log rest with
      | error e =>
        rw [hrec] at h
        simp at h
      | ok rr =>
        obtain ⟨rk, re⟩ := rr
        rw [hrec] at h
        have ihr := ih rk re hrec
        cases b
        · simp only [Bool.false_eq_true, if_false, Except.ok.injEq, Prod.mk.injEq] at h
          rw [← h.1, ihr]
          simp [List.filter_cons, keptByClassifier, hc]
        · simp only [if_true, Except.ok.injEq, Prod.mk.injEq] at h
          rw [← h.1, ihr]
          simp [List.filter_cons, keptByClassifier, hc]

theorem gatherFiles_sorted (fs : FS) (ps : List String) :
    List.Sorted StrLe (gatherFiles fs ps) := by
  unfold gatherFiles sortDedup pySortStrings
  exact List.sorted_insertionSort StrLe _

theorem pySortStrings_of_sorted {l : List String} (h : List.Sorted StrLe l) :
    pySortStrings l = l :=
  h.insertionSort_eq

theorem collectFiles_ok_incl (fs : FS) (ps : List String) (log : Bool)
    (incl : List String) (exc : List (String × String))
    (h : collectFiles fs ps log = .ok (incl, exc)) :
    incl = claimIncludedFiles fs ps := by
  have hsorted : ∀ p : String → Bool,
      pySortStrings ((gatherFiles fs ps).filter p) = (gatherFiles fs ps).filter p :=
    fun p => pySortStrings_of_sorted ((gatherFiles_sorted fs ps).filter p)
  simp only [collectFiles, filterGitLoop_fst] at h
  cases hbin : filterBinaryLoop fs log ((gatherFiles fs ps).filter (fun f => ! is_git_path f)) with
  | error e =>
    rw [hbin] at h
    simp at h
  | ok r2 =>
    obtain ⟨kept2, exc2⟩ := r2
    simp only [hbin] at h
    have hk2 : kept2 =
        ((gatherFiles fs ps).filter (fun f => ! is_git_path f)).filter (keptByClassifier fs) :=
      filterBinaryLoop_ok_fst fs log _ kept2 exc2 hbin
    rw [List.filter_filter] at hk2
    by_cases hpats : load_gitignore_patterns fs = []
    · have hcond : ¬ (load_gitignore_patterns fs ≠ []) := by simp [hpats]
      rw [if_neg hcond] at h
      have hincl : pySortStrings kept2 = incl := congrArg Prod.fst (Except.ok.inj h)
      rw [← hincl, hk2, hsorted]
      unfold claimIncludedFiles
      apply List.filter_congr
      intro x hx
      simp [hpats, specMatchFile_nil, Bool.and_comm]
    · have hE : fs.gitignoreExists = true := by
        cases hE2 : fs.gitignoreExists
        · exact absurd (by simp [load_gitignore_patterns, hE2]) hpats
        · rfl
      by_cases hav : fs.pathspecAvailable = true
      · rw [if_pos hpats, if_pos hav, filterIgnoreLoop_fst] at h
        have hincl : pySortStrings (kept2.filter
            (fun f => ! specMatchFile fs.wildmatch (load_gitignore_patterns fs) f)) = incl :=
          congrArg Prod.fst (Except.ok.inj h)
        rw [← hincl, hk2, List.filter_filter, hsorted]
        unfold claimIncludedFiles
        apply List.filter_congr
        intro x hx
        simp only [hE, hav, Bool.true_and]
        cases hgx : is_git_path x <;> cases hkx : keptByClassifier fs x <;>
          cases hsx : specMatchFile fs.wildmatch (load_gitignore_patterns fs) x <;> simp
      · rw [if_pos hpats, if_neg hav] at h
        have hincl : pySortStrings kept2 = incl := congrArg Prod.fst (Except.ok.inj h)
        have hav2 : fs.pathspecAvailable = false := by simpa using hav
        rw [← hincl, hk2, hsorted]
        unfold claimIncludedFiles
        apply List.filter_congr
        intro x hx
        simp [hav2, Bool.and_comm]

/-! ## Claim C1: the included list is exactly the filtered sorted set -/

/-- Claim C1: whenever the collector pipeline completes, the included list
is exactly the lexicographically sorted, de-duplicated set of regular
files matched by at least one pattern, minus paths containing a .git
segment, minus files classified binary or oversized, minus
gitignore-matched files (the last stage applying only when the ignore
file exists and pathspec is available); the final list moreover sits
inside every earlier stage of the pipeline, so the filters only ever
narrow, and the run renders exactly this list into the output document. -/
theorem collector_included_files (fs : FS) (ps : List String) (log : Bool)
    (incl : List String) (exc : List (String × String))
    (h : collectFiles fs ps log = .ok (incl, exc)) :
    incl = claimIncludedFiles fs ps ∧
    incl ⊆ (filterGitLoop log (gatherFiles fs ps)).1 ∧
    incl ⊆ gatherFiles fs ps ∧
    mainRun fs ps log =
      .ok { doc := md_content fs incl,
            log := if log then log_file_status incl exc else [] } := by
  have hmain := collectFiles_ok_incl fs ps log incl exc h
  refine ⟨hmain, ?_, ?_, ?_⟩
  · rw [filterGitLoop_fst, hmain]
    unfold claimIncludedFiles
    intro f hf
    rw [List.mem_filter] at hf
    rw [List.mem_filter]
    refine ⟨hf.1, ?_⟩
    have h2 := hf.2
    simp only [Bool.and_eq_true] at h2
    exact h2.1.1
  · rw [hmain]
    unfold claimIncludedFiles
    intro f hf
    exact (List.mem_filter.mp hf).1
  · simp only [mainRun, h]

/-- Claim C1 witness: on a filesystem exercising every stage (duplicate
matches, a directory, a git path, a binary file, an ignored file), the
pipeline keeps exactly b.txt. -/
theorem collector_included_files_witness :
    ["b.txt"] = claimIncludedFiles fsPipeline ["*"] ∧
    ["b.txt"] ⊆ (filterGitLoop true (gatherFiles fsPipeline ["*"])).1 ∧
    ["b.txt"] ⊆ gatherFiles fsPipeline ["*"] ∧
    mainRun fsPipeline ["*"] true =
      .ok { doc := md_content fsPipeline ["b.txt"],
            log := if true then
                log_file_status ["b.txt"]
                  [(".git/config", "git path"), ("bin.dat", "binary/large"),
                    ("a.log", "gitignore")]
              else [] } :=
  collector_included_files fsPipeline ["*"] true ["b.txt"]
    [(".git/config", "git path"), ("bin.dat", "binary/large"), ("a.log", "gitignore")] rfl

/-! ## Claim C9: the document is a deterministic function of the state -/

/-- Claim C9: the rendered document is a deterministic function of the
patterns and the filesystem state: two collector runs that observe
identical filesystem responses (nothing changed between the runs) produce
byte-identical documents. -/
theorem collector_runs_deterministic (fs1 fs2 : FS) (ps : List String) (log : Bool)
    (hglob : ∀ p, fs1.globExpand p = fs2.globExpand p)
    (hisFile : ∀ f, fs1.isFile f = fs2.isFile f)
    (hstat : ∀ f, fs1.stat f = fs2.stat f)
    (hcontent : ∀ f, fs1.content f = fs2.content f)
    (hread : ∀ f, fs1.readText f = fs2.readText f)
    (hexists : fs1.gitignoreExists = fs2.gitignoreExists)
    (hlines : fs1.gitignoreLines = fs2.gitignoreLines)
    (havail : fs1.pathspecAvailable = fs2.pathspecAvailable)
    (hwild : ∀ pat f, fs1.wildmatch pat f = fs2.wildmatch pat f)
    (hrel : ∀ f, fs1.relpath f = fs2.relpath f) :
    (mainRun fs1 ps log).map RunResult.doc = (mainRun fs2 ps log).map RunResult.doc := by
  have hfs : fs1 = fs2 := by
    obtain ⟨g1, i1, s1, c1, t1, e1, l1, a1, w1, r1⟩ := fs1
    obtain ⟨g2, i2, s2, c2, t2, e2, l2, a2, w2, r2⟩ := fs2
    simp only at hglob hisFile hstat hcontent hread hexists hlines havail hwild hrel
    congr 1
    · exact funext hglob
    · exact funext hisFile
    · exact funext hstat
    · exact funext hcontent
    · exact funext hread
    · exact funext fun pat => funext (hwild pat)
    · exact funext hrel
  rw [hfs]

/-- Claim C9 witness: a second run on the unchanged pipeline filesystem
yields the same document. -/
theorem collector_runs_deterministic_witness :
    (mainRun fsPipeline ["*"] true).map RunResult.doc =
      (mainRun fsPipeline ["*"] true).map RunResult.doc :=
  collector_runs_deterministic fsPipeline fsPipeline ["*"] true
    (fun _ => rfl) (fun _ => rfl) (fun _ => rfl) (fun _ => rfl) (fun _ => rfl)
    rfl rfl rfl (fun _ _ => rfl) (fun _ => rfl)

/-! ## Claim C10: the quiet flag never changes the document -/

theorem filterBinaryLoop_log_fst (fs : FS) (l : List String) :
    (filterBinaryLoop fs true l).map Prod.fst = (filterBinaryLoop fs false l).map Prod.fst := by
  induction l with
  | nil => rfl
  | cons f rest ih =>
    simp only [filterBinaryLoop]
    cases hc : is_binary_or_large fs f with
    | error e => rfl
    | ok b =>
      cases hT : filterBinaryLoop fs true rest with
      | error e =>
        cases hF : filterBinaryLoop fs false rest with
        | error e2 => rfl
        | ok rr =>
          rw [hT, hF] at ih
          simp [Except.map] at ih
      | ok rr =>
        cases hF : filterBinaryLoop fs false rest with
        | error e2 =>
          rw [hT, hF] at ih
          simp [Except.map] at ih
        | ok rr2 =>
          rw [hT, hF] at ih
          have hfst : rr.1 = rr2.1 := by simpa [Except.map] using ih
          cases b <;> simp [Except.map, hfst]

theorem collectFiles_log_fst (fs : FS) (ps : List String) :
    (collectFiles fs ps true).map Prod.fst = (collectFiles fs ps false).map Prod.fst := by
  simp only [collectFiles, filterGitLoop_fst]
  have hbin := filterBinaryLoop_log_fst fs ((gatherFiles fs ps).filter (fun f => ! is_git_path f))
  cases hT : filterBinaryLoop fs true ((gatherFiles fs ps).filter (fun f => ! is_git_path f)) with
  | error e =>
    cases hF : filterBinaryLoop fs false ((gatherFiles fs ps).filter (fun f => ! is_git_path f)) with
    | error e2 => rfl
    | ok rr =>
      rw [hT, hF] at hbin
      simp [Except.map] at hbin
  | ok rr =>
    cases hF : filterBinaryLoop fs false ((gatherFiles fs ps).filter (fun f => ! is_git_path f)) with
    | error e2 =>
      rw [hT, hF] at hbin
      simp [Except.map] at hbin
    | ok rr2 =>
      rw [hT, hF] at hbin
      have hfst : rr.1 = rr2.1 := by simpa [Except.map] using hbin
      dsimp only
      by_cases hpats : load_gitignore_patterns fs = []
      · have hcond : ¬ (load_gitignore_patterns fs ≠ []) := by simp [hpats]
        rw [if_neg hcond, if_neg hcond]
        simp [Except.map, hfst]
      · by_cases hav : fs.pathspecAvailable = true
        · rw [if_pos hpats, if_pos hpats, if_pos hav, if_pos hav,
            filterIgnoreLoop_fst, filterIgnoreLoop_fst]
          simp [Except.map, hfst]
        · rw [if_pos hpats, if_pos hpats, if_neg hav, if_neg hav]
          simp [Except.map, hfst]

/-- Claim C10: the document and the set of included files are identical
whether logging is enabled or suppressed; the quiet flag only changes the
console status lines, never which files are filtered out nor the rendered
document. -/
theorem quiet_flag_immaterial (fs : FS) (ps : List String) :
    (mainRun fs ps true).map RunResult.doc = (mainRun fs ps false).map RunResult.doc ∧
    (collectFiles fs ps true).map Prod.fst = (collectFiles fs ps false).map Prod.fst := by
  have hc := collectFiles_log_fst fs ps
  constructor
  · simp only [mainRun]
    cases hT : collectFiles fs ps true with
    | error e =>
      cases hF : collectFiles fs ps false with
      | error e2 => rfl
      | ok r =>
        rw [hT, hF] at hc
        simp [Except.map] at hc
    | ok r =>
      cases hF : collectFiles fs ps false with
      | error e2 =>
        rw [hT, hF] at hc
        simp [Except.map] at hc
      | ok r2 =>
        rw [hT, hF] at hc
        have hfst : r.1 = r2.1 := by simpa [Except.map] using hc
        simp [Except.map, hfst]
  · exact hc
